import Mathlib

/-!
Shallow embedding of the OpenInput dispatch / report-framing core
(`src/lib.rs`, `src/dispatch.rs`).

Bytes are modelled as `Nat` (all operations here move bytes around; the
only arithmetic on a byte value is the `as u8` cast in the info handlers,
modelled with an explicit `% 256`).  `heapless::Vec<u8, N>` values are
modelled as `List Nat`; the capacity-check failures of `resize`,
`extend_from_slice` and `Vec::from_iter`, the `try_into` slice-to-array
conversions and the panicking slice indexing `input[0]` are modelled with
`Option`, where `none` stands for a panic/`unwrap` failure.
-/

namespace OpenInput

def OPENINPUT_SHORT_REPORT_ID : Nat := 0x20

def OPENINPUT_LONG_REPORT_ID : Nat := 0x21

def ERROR_FUNCTION_PAGE : Nat := 0xFF

def INFO_FUNCTION_PAGE : Nat := 0x00

/-- `ReportId, FnPage, FnId` -/
def DISPATCH_PREFIX_LEN : Nat := 3

/-- `ReportId, FnPage (0xFF), ErrorId, FnPage, FnId` -/
def ERROR_PREFIX_LEN : Nat := DISPATCH_PREFIX_LEN + 2

def SHORT_LEN : Nat := 8

def LONG_LEN : Nat := 32

def DISPATCH_LONG_RET_LEN : Nat := LONG_LEN - DISPATCH_PREFIX_LEN

def DISPATCH_SHORT_RET_LEN : Nat := SHORT_LEN - DISPATCH_PREFIX_LEN

/-- `OiReport<'a>` (src/lib.rs): report id byte, function page, function id,
payload slice. -/
structure OiReport where
  id : Nat
  function_page : Nat
  function_id : Nat
  data : List Nat
deriving Repr, DecidableEq

/-- `OiReport::read` (src/lib.rs).  The source guard is
`if bytes.len() != 8 || bytes.len() != 32 { return Err(()); }` — translated
verbatim, `||` included. -/
def OiReport.read (bytes : List Nat) : Except Unit OiReport :=
  if bytes.length ≠ 8 ∨ bytes.length ≠ 32 then Except.error ()
  else
    match bytes with
    | id :: page :: fn_id :: data =>
        Except.ok { id := id, function_page := page, function_id := fn_id, data := data }
    | _ => Except.error ()

/-- `OiReport::new_short` (src/lib.rs); the source takes `&[u8; 5]`, so callers
only supply 5-byte payloads. -/
def OiReport.new_short (page fn_id : Nat) (data : List Nat) : OiReport :=
  { id := OPENINPUT_SHORT_REPORT_ID, function_page := page, function_id := fn_id, data := data }

/-- `OiReport::new_long` (src/lib.rs); the source takes `&[u8; 29]`. -/
def OiReport.new_long (page fn_id : Nat) (data : List Nat) : OiReport :=
  { id := OPENINPUT_LONG_REPORT_ID, function_page := page, function_id := fn_id, data := data }

/-- `impl From<OiReport<'a>> for heapless::Vec<u8, 32>` (src/lib.rs):
concatenates `[id, function_page, function_id]` with the payload.  The two
`extend_from_slice(..).unwrap()` calls fail exactly when the total exceeds
the capacity 32; `none` models that panic. -/
def OiReport.intoVec (src : OiReport) : Option (List Nat) :=
  if DISPATCH_PREFIX_LEN + src.data.length ≤ 32 then
    some ([src.id, src.function_page, src.function_id] ++ src.data)
  else none

/-- `dispatch::Error` (src/dispatch.rs).  `Custom` carries a
`[u8; LONG_LEN - ERROR_PREFIX_LEN]` = 27-byte buffer in the source. -/
inductive Error where
  | InvalidValue (index : Nat)
  | UnsupportedFunction
  | Custom (ascii : List Nat)
deriving Repr, DecidableEq

/-- `Error::id` (src/dispatch.rs). -/
def Error.id : Error → Nat
  | .InvalidValue _ => 0x01
  | .UnsupportedFunction => 0x02
  | .Custom _ => 0xFE

/-- First null byte of the message with its index:
`ascii.iter().enumerate().filter(|(_, &char)| char == 0).next()`. -/
def firstNull (ascii : List Nat) : Option (Nat × Nat) :=
  ascii.enum.find? (fun p => p.2 == 0)

/-- `Error::serialize_error` (src/dispatch.rs), translated statement by
statement.  In the `Custom` arm the source initialises `rep` with
`id: OPENINPUT_SHORT_REPORT_ID` and `data: &[]`; the `i <= 3` arm and the
no-null arm assign `rep.id = OPENINPUT_SHORT_REPORT_ID` again, and the
`i > 3` arm leaves `rep.id` unchanged, so every path keeps the short report
id.  The local `buf` receives the message bytes via `copy_from_slice` but
`rep.data` is never re-pointed at it, so the emitted frame keeps the empty
payload; `_buf` mirrors that dead computation. -/
def Error.serialize_error (e : Error) (page id : Nat) : Option (List Nat) :=
  let invalid_data := fun index => [page, id, index]
  let unsupported_data := [page, id]
  let o : OiReport :=
    match e with
    | Error.InvalidValue index =>
        { id := OPENINPUT_SHORT_REPORT_ID, function_page := ERROR_FUNCTION_PAGE,
          function_id := e.id, data := invalid_data index }
    | Error.UnsupportedFunction =>
        { id := OPENINPUT_SHORT_REPORT_ID, function_page := ERROR_FUNCTION_PAGE,
          function_id := e.id, data := unsupported_data }
    | Error.Custom ascii =>
        let rep : OiReport :=
          { id := OPENINPUT_SHORT_REPORT_ID, function_page := ERROR_FUNCTION_PAGE,
            function_id := e.id, data := [] }
        let idAndLen : Nat × Nat :=
          match firstNull ascii with
          | some (i, _) => if i ≤ 3 then (OPENINPUT_SHORT_REPORT_ID, i) else (rep.id, i)
          | none => (OPENINPUT_SHORT_REPORT_ID, LONG_LEN - ERROR_PREFIX_LEN)
        let len := idAndLen.2
        let _buf : List Nat := ascii.take len ++ List.replicate (LONG_LEN - len) 0
        { rep with id := idAndLen.1 }
  o.intoVec

/-- `heapless::Vec::<u8, cap>::resize(new_len, val)`: fails (returns `Err`)
exactly when `new_len` exceeds the capacity; otherwise truncates or pads
with `val`. -/
def hVecResize (v : List Nat) (cap new_len val : Nat) : Option (List Nat) :=
  if new_len ≤ cap then
    some (if new_len ≤ v.length then v.take new_len
          else v ++ List.replicate (new_len - v.length) val)
  else none

/-- `<&[u8] as TryInto<&[u8; n]>>::try_into`: succeeds exactly when the slice
has length `n`. -/
def sliceToArray (v : List Nat) (n : Nat) : Option (List Nat) :=
  if v.length = n then some v else none

/-- `DispatchResponse` (src/dispatch.rs): newtype over
`heapless::Vec<u8, DISPATCH_LONG_RET_LEN>` (capacity 29). -/
structure DispatchResponse where
  buf : List Nat
deriving Repr, DecidableEq

/-- `DispatchResponse::report` (src/dispatch.rs), branch structure verbatim:
when the buffer is longer than `DISPATCH_SHORT_RET_LEN` it is resized to
`DISPATCH_SHORT_RET_LEN` and framed with `new_short`, otherwise it is
resized to `DISPATCH_LONG_RET_LEN` and framed with `new_long`.  `none`
models a panic of either `resize(..).unwrap()` or `try_into().unwrap()`. -/
def DispatchResponse.report (self : DispatchResponse) (page fn_id : Nat) : Option OiReport :=
  if self.buf.length > DISPATCH_SHORT_RET_LEN then
    match hVecResize self.buf DISPATCH_LONG_RET_LEN DISPATCH_SHORT_RET_LEN 0 with
    | none => none
    | some v =>
      match sliceToArray v DISPATCH_SHORT_RET_LEN with
      | none => none
      | some a => some (OiReport.new_short page fn_id a)
  else
    match hVecResize self.buf DISPATCH_LONG_RET_LEN DISPATCH_LONG_RET_LEN 0 with
    | none => none
    | some v =>
      match sliceToArray v DISPATCH_LONG_RET_LEN with
      | none => none
      | some a => some (OiReport.new_long page fn_id a)

/-- `DispatchMeta` (src/dispatch.rs): the three strings live in
`heapless::Vec<u8, DISPATCH_LONG_RET_LEN>` buffers, `protocol_version` in a
`[u8; 3]`. -/
structure DispatchMeta where
  protocol_version : List Nat
  firmware_vendor : List Nat
  firmware_version : List Nat
  device_name : List Nat
deriving Repr, DecidableEq

/-- The key structure of the two-level table: page byte paired with the list
of function-id bytes on that page, in insertion order.  Handlers in the
source receive `&DispatchTable` through the context but only ever read its
keys (`iter().map(|(&k, _)| k)` and `get(&page)` followed by key
iteration), so the context carries exactly this projection; carrying the
handler pointers themselves would make `DispatchFn` occur negatively in its
own definition. -/
abbrev TableKeys := List (Nat × List Nat)

/-- `DispatchContext` (src/dispatch.rs): read-only view of the table plus the
metadata record. -/
structure DispatchContext where
  table : TableKeys
  meta : DispatchMeta

abbrev DispatchReturn := Except Error DispatchResponse

/-- `DispatchFn` (src/dispatch.rs); the outer `Option` models a potential
panic inside the handler (e.g. out-of-bounds `input[0]`). -/
abbrev DispatchFn := List Nat → DispatchContext → Option DispatchReturn

/-- `DispatchTable = FnvIndexMap<u8, FnvIndexMap<u8, DispatchFn, 8>, 8>`,
modelled as a key-unique association list in insertion order (the map's
`get` is exact-key lookup, its iteration order is insertion order). -/
abbrev DispatchTable := List (Nat × List (Nat × DispatchFn))

/-- Projection of the table to its key structure (what `DispatchContext`
exposes to handlers). -/
def DispatchTable.keys (t : DispatchTable) : TableKeys :=
  t.map (fun e => (e.1, e.2.map Prod.fst))

/-- `Dispatch` (src/dispatch.rs). -/
structure Dispatch where
  table : DispatchTable
  meta : DispatchMeta

/-- `Dispatch::dispatch_raw` (src/dispatch.rs): asserts
`5 <= data.len() <= 29` (`none` models the assertion failure), performs the
two-level lookup, returns `Err(UnsupportedFunction)` on a miss at either
level, and otherwise calls the handler with the payload and the context. -/
def Dispatch.dispatch_raw (self : Dispatch) (page id : Nat) (data : List Nat) :
    Option DispatchReturn :=
  if DISPATCH_SHORT_RET_LEN ≤ data.length ∧ data.length ≤ DISPATCH_LONG_RET_LEN then
    match (self.table.lookup page).bind (fun fn_page => fn_page.lookup id) with
    | none => some (Except.error Error.UnsupportedFunction)
    | some func => func data { table := DispatchTable.keys self.table, meta := self.meta }
  else none

/-- Rust `slice.get(start..)`: `Some` of the suffix when `start <= len`
(`start = len` yields the empty slice), `None` when `start > len`. -/
def sliceGetFrom (l : List Nat) (start : Nat) : Option (List Nat) :=
  if start ≤ l.length then some (l.drop start) else none

namespace info_table

def INFO_VERSION : Nat := 0x00

def INFO_FIRMWARE_INFO : Nat := 0x01

def INFO_SUPPORTED_FUNCTION_PAGES : Nat := 0x02

def INFO_SUPPORTED_FUNCTIONS : Nat := 0x03

/-- `info_table::protocol_version` (src/dispatch.rs). -/
def protocol_version : DispatchFn := fun _ ctx =>
  some (Except.ok { buf := ctx.meta.protocol_version })

/-- `info_table::FirmwareInfoParam`. -/
inductive FirmwareInfoParam where
  | Vendor
  | Version
  | DeviceName
deriving Repr, DecidableEq

/-- `impl TryFrom<u8> for FirmwareInfoParam` (src/dispatch.rs). -/
def FirmwareInfoParam.tryFrom (value : Nat) : Except Error FirmwareInfoParam :=
  match value with
  | 0 => Except.ok .Vendor
  | 1 => Except.ok .Version
  | 2 => Except.ok .DeviceName
  | _ => Except.error (Error.InvalidValue 0)

/-- `info_table::firmware_info` (src/dispatch.rs): `input[0]` panics on an
empty payload (`none`); an unknown selector propagates
`Err(InvalidValue(0))` via `?`; otherwise the selected metadata string is
cloned into the response verbatim. -/
def firmware_info : DispatchFn := fun input ctx =>
  match input with
  | [] => none
  | b :: _ =>
    match FirmwareInfoParam.tryFrom b with
    | Except.error e => some (Except.error e)
    | Except.ok FirmwareInfoParam.Vendor => some (Except.ok { buf := ctx.meta.firmware_vendor })
    | Except.ok FirmwareInfoParam.Version => some (Except.ok { buf := ctx.meta.firmware_version })
    | Except.ok FirmwareInfoParam.DeviceName => some (Except.ok { buf := ctx.meta.device_name })

/-- `info_table::supported_fn_pages` (src/dispatch.rs): reads `input[0]`
(panic on empty payload), collects the table's page keys into a
`Vec<u8, 8>` (`Vec::from_iter` panics past capacity 8), sorts them
(`sort_unstable`, ascending), takes the suffix from `start`
(`get(start..)`, `Err(InvalidValue(0))` when out of range) and emits
`[count as u8, 0]` followed by the suffix (the two
`extend_from_slice(..).unwrap()` calls need `2 + count <= 29`). -/
def supported_fn_pages : DispatchFn := fun input ctx =>
  match input with
  | [] => none
  | b0 :: _ =>
    let start := b0
    if ctx.table.length ≤ 8 then
      let pages := List.insertionSort (· ≤ ·) (ctx.table.map Prod.fst)
      match sliceGetFrom pages start with
      | none => some (Except.error (Error.InvalidValue 0))
      | some element_list =>
        if 2 + element_list.length ≤ DISPATCH_LONG_RET_LEN then
          some (Except.ok { buf := [element_list.length % 256, 0] ++ element_list })
        else none
    else none

/-- `info_table::supported_fns` (src/dispatch.rs): reads `input[0]` and
`input[1]` (panic when the payload is shorter), looks the page up
(`Err(UnsupportedFunction)` when absent), then proceeds exactly like
`supported_fn_pages` over that page's function ids. -/
def supported_fns : DispatchFn := fun input ctx =>
  match input with
  | page :: start :: _ =>
    match ctx.table.lookup page with
    | none => some (Except.error Error.UnsupportedFunction)
    | some fn_page =>
      if fn_page.length ≤ 8 then
        let functions := List.insertionSort (· ≤ ·) fn_page
        match sliceGetFrom functions start with
        | none => some (Except.error (Error.InvalidValue 0))
        | some element_list =>
          if 2 + element_list.length ≤ DISPATCH_LONG_RET_LEN then
            some (Except.ok { buf := [element_list.length % 256, 0] ++ element_list })
          else none
      else none
  | _ => none

end info_table

/-! Concrete fixtures used by the witness theorems. -/

def meta0 : DispatchMeta :=
  { protocol_version := [0, 0, 1], firmware_vendor := [86], firmware_version := [87],
    device_name := [88] }

/-- A handler echoing the first two request bytes, used to observe that
dispatch returns handler results verbatim. -/
def handler0 : DispatchFn := fun data _ => some (Except.ok { buf := data.take 2 })

def table0 : DispatchTable := [(0, [(0, handler0)])]

/-- A context whose pages and function ids are registered out of numeric
order. -/
def ctx0 : DispatchContext := { table := [(2, [1, 0]), (0, [3])], meta := meta0 }

/-! General lemmas. -/

/-- `OiReport::read` can never succeed: its guard
`bytes.len() != 8 || bytes.len() != 32` holds for every length. -/
theorem OiReport.read_always_fails (bytes : List Nat) :
    OiReport.read bytes = Except.error () := by
  unfold OiReport.read
  rw [if_pos]
  by_cases h : bytes.length = 8
  · exact Or.inr (by omega)
  · exact Or.inl h

theorem length_sortKeys (l : List Nat) :
    (List.insertionSort (· ≤ ·) l).length = l.length :=
  List.length_insertionSort _ l

/-- Any suffix of a sorted key list is sorted. -/
theorem sorted_drop_sortKeys (l : List Nat) (n : Nat) :
    List.Sorted (· ≤ ·) ((List.insertionSort (· ≤ ·) l).drop n) :=
  List.Pairwise.sublist (List.drop_sublist n _) (List.sorted_insertionSort _ l)

/-! Claim theorems. -/

/-- C1: the claim says encoding a `ReportFrame` and decoding the bytes with
`OiReport::read` recovers (page, function_id, payload).  The code disagrees:
`read`'s guard `bytes.len() != 8 || bytes.len() != 32` is a tautology, so a
well-formed 8-byte short frame (and likewise any 32-byte buffer) is
rejected with `Err(())`. -/
theorem read_rejects_wellformed_short_frame :
    (OiReport.new_short 1 2 [9, 9, 9, 9, 9]).intoVec = some [0x20, 1, 2, 9, 9, 9, 9, 9] ∧
    OiReport.read [0x20, 1, 2, 9, 9, 9, 9, 9] = Except.error () ∧
    OiReport.read (0x21 :: 1 :: 2 :: List.replicate 29 7) = Except.error () :=
  ⟨rfl, rfl, rfl⟩

/-- C2: the claim says a `Custom` message is scanned for the first null and
the message bytes travel in a Short or Long frame accordingly.  The code
disagrees: `rep.id` is set to the short report id on every path (including
`i > 3` and no-null) and `rep.data` is never re-pointed at the filled `buf`,
so every `Custom` error serializes to the bare 3-byte header
`[0x20, 0xFF, 0xFE]` — here shown for a null at offset 3, a null at
offset 4, and a 27-byte message with no null. -/
theorem custom_error_drops_message_bytes :
    (Error.Custom ([65, 66, 67, 0] ++ List.replicate 23 0)).serialize_error 3 4 =
        some [0x20, 0xFF, 0xFE] ∧
    (Error.Custom ([65, 66, 67, 68, 0] ++ List.replicate 22 0)).serialize_error 3 4 =
        some [0x20, 0xFF, 0xFE] ∧
    (Error.Custom (List.replicate 27 65)).serialize_error 3 4 =
        some [0x20, 0xFF, 0xFE] :=
  ⟨rfl, rfl, rfl⟩

/-- C3: the claim says framing pads a response (never truncates), sending
length ≤ 5 as Short and longer ones as Long.  The code disagrees: the
branch test is inverted, so a 6-byte response is truncated to its first
5 bytes and framed Short, while a 3-byte response is padded to 29 bytes and
framed Long. -/
theorem response_framing_truncates_and_swaps :
    (DispatchResponse.mk [1, 2, 3, 4, 5, 6]).report 7 9 =
        some (OiReport.new_short 7 9 [1, 2, 3, 4, 5]) ∧
    (DispatchResponse.mk [1, 2, 3]).report 7 9 =
        some (OiReport.new_long 7 9 ([1, 2, 3] ++ List.replicate 26 0)) :=
  ⟨rfl, rfl⟩

/-- C4 counterexample: at page 1, id 2 the serialized `UnsupportedFunction`
frame is `[0x20, 0xFF, 0x02, 1, 2]` — the error-kind byte sits in the
`function_id` slot right after `0xFF`, not after the original page and id
as the claimed encoding `[0xFF, page, id, 0x02]` would have it. -/
theorem unsupported_wire_bytes_counterexample :
    Error.UnsupportedFunction.serialize_error 1 2 = some [0x20, 0xFF, 0x02, 1, 2] ∧
    [0x20, 0xFF, 0x02, 1, 2] ≠ [0x20, 0xFF, 1, 2, 0x02] ∧
    List.drop 1 [0x20, 0xFF, 0x02, 1, 2] ≠ [0xFF, 1, 2, 0x02] :=
  ⟨rfl, by decide, by decide⟩

/-- C4 (amended): for every unregistered (page, id) and every payload of
length in [5, 29], `dispatch_raw` returns `Err(UnsupportedFunction)`, and
serializing that error yields the short-report bytes
`[0x20, 0xFF, 0x02, page, id]` (error page `0xFF`, error id `0x02` in the
`function_id` slot, original page and id in the payload; 5 bytes, not
padded to 8). -/
theorem unsupported_dispatch_and_wire (self : Dispatch) (page id : Nat) (data : List Nat)
    (h5 : 5 ≤ data.length) (h29 : data.length ≤ 29)
    (hmiss : (self.table.lookup page).bind (fun fn_page => fn_page.lookup id) = none) :
    self.dispatch_raw page id data = some (Except.error Error.UnsupportedFunction) ∧
    Error.UnsupportedFunction.serialize_error page id =
      some [OPENINPUT_SHORT_REPORT_ID, ERROR_FUNCTION_PAGE, 0x02, page, id] := by
  constructor
  · unfold Dispatch.dispatch_raw
    rw [if_pos (show DISPATCH_SHORT_RET_LEN ≤ data.length ∧
        data.length ≤ DISPATCH_LONG_RET_LEN from ⟨h5, h29⟩), hmiss]
  · rfl

/-- Witness for C4's amended theorem: the empty table at page 1, id 2. -/
theorem unsupported_dispatch_and_wire_witness :
    (Dispatch.mk [] meta0).dispatch_raw 1 2 [0, 0, 0, 0, 0] =
        some (Except.error Error.UnsupportedFunction) ∧
    Error.UnsupportedFunction.serialize_error 1 2 =
      some [OPENINPUT_SHORT_REPORT_ID, ERROR_FUNCTION_PAGE, 0x02, 1, 2] :=
  unsupported_dispatch_and_wire (Dispatch.mk [] meta0) 1 2 [0, 0, 0, 0, 0]
    (by decide) (by decide) rfl

/-- C5 counterexample: the serialized `UnsupportedFunction` frame for
page 1, id 2 is 5 bytes long, which is neither 8 nor 32 — `serialize_error`
does not pad frames to the wire sizes. -/
theorem error_frame_length_counterexample :
    (Error.UnsupportedFunction.serialize_error 1 2).map List.length = some 5 ∧
    ¬((5 : Nat) = 8 ∨ (5 : Nat) = 32) :=
  ⟨rfl, by decide⟩

/-- C5 (amended): every serialized error is the short report id `0x20`
followed by `function_page = 0xFF` and `function_id = the error-kind id`
(`0x01`/`0x02`/`0xFE`), then the payload: `[page, id, index]` for
`InvalidValue` (6 bytes total), `[page, id]` for `UnsupportedFunction`
(5 bytes), and nothing for `Custom` (3 bytes) — frames are not padded to
8/32 bytes, and `Custom` carries neither the original page/id nor the
message. -/
theorem error_frame_shape (e : Error) (page id : Nat) :
    e.serialize_error page id =
      some (OPENINPUT_SHORT_REPORT_ID :: ERROR_FUNCTION_PAGE :: e.id ::
        (match e with
         | Error.InvalidValue index => [page, id, index]
         | Error.UnsupportedFunction => [page, id]
         | Error.Custom _ => [])) := by
  cases e with
  | InvalidValue index => rfl
  | UnsupportedFunction => rfl
  | Custom ascii =>
    unfold Error.serialize_error
    rcases h : firstNull ascii with _ | ⟨i, c⟩
    · simp [h, OiReport.intoVec, Error.id, DISPATCH_PREFIX_LEN]
    · by_cases hi : i ≤ 3
      · simp [h, hi, OiReport.intoVec, Error.id, DISPATCH_PREFIX_LEN]
      · simp [h, hi, OiReport.intoVec, Error.id, DISPATCH_PREFIX_LEN]

/-- C6: for every payload of length in [5, 29], dispatch performs the
two-level lookup (page in the outer map, id in the inner map): a hit
invokes the handler on the payload and the read-only context and returns
its result verbatim; a miss at either level yields
`Err(UnsupportedFunction)`. -/
theorem dispatch_two_level_lookup (self : Dispatch) (page id : Nat) (data : List Nat)
    (h5 : 5 ≤ data.length) (h29 : data.length ≤ 29) :
    (∀ func, (self.table.lookup page).bind (fun fn_page => fn_page.lookup id) = some func →
        self.dispatch_raw page id data =
          func data { table := DispatchTable.keys self.table, meta := self.meta }) ∧
    ((self.table.lookup page).bind (fun fn_page => fn_page.lookup id) = none →
        self.dispatch_raw page id data = some (Except.error Error.UnsupportedFunction)) := by
  constructor
  · intro func hfunc
    unfold Dispatch.dispatch_raw
    rw [if_pos (show DISPATCH_SHORT_RET_LEN ≤ data.length ∧
        data.length ≤ DISPATCH_LONG_RET_LEN from ⟨h5, h29⟩), hfunc]
  · intro hmiss
    unfold Dispatch.dispatch_raw
    rw [if_pos (show DISPATCH_SHORT_RET_LEN ≤ data.length ∧
        data.length ≤ DISPATCH_LONG_RET_LEN from ⟨h5, h29⟩), hmiss]

/-- Witness for C6: a one-entry table whose handler echoes the first two
request bytes; dispatch returns exactly the handler's response. -/
theorem dispatch_two_level_lookup_witness :
    (Dispatch.mk table0 meta0).dispatch_raw 0 0 [5, 6, 7, 8, 9] =
      some (Except.ok { buf := [5, 6] }) :=
  ((dispatch_two_level_lookup (Dispatch.mk table0 meta0) 0 0 [5, 6, 7, 8, 9]
      (by decide) (by decide)).1 handler0 rfl).trans rfl

/-- Helper for C7: a successful `supported_fn_pages` response lists the page
bytes (after the `[count, 0]` prefix) in ascending order. -/
theorem supported_fn_pages_sorted (input : List Nat) (ctx : DispatchContext)
    (resp : DispatchResponse)
    (h : info_table.supported_fn_pages input ctx = some (Except.ok resp)) :
    List.Sorted (· ≤ ·) (resp.buf.drop 2) := by
  match input with
  | [] => exact absurd h (by simp [info_table.supported_fn_pages])
  | b0 :: rest =>
    simp only [info_table.supported_fn_pages] at h
    split at h
    · split at h
      · exact absurd h (by simp)
      · rename_i element_list heq
        split at h
        · simp only [Option.some.injEq, Except.ok.injEq] at h
          subst h
          simp only [sliceGetFrom] at heq
          split at heq
          · simp only [Option.some.injEq] at heq
            subst heq
            exact sorted_drop_sortKeys _ _
          · exact absurd heq (by simp)
        · exact absurd h (by simp)
    · exact absurd h (by simp)

/-- Helper for C7: a successful `supported_fns` response lists the function
ids (after the `[count, 0]` prefix) in ascending order. -/
theorem supported_fns_sorted (input : List Nat) (ctx : DispatchContext)
    (resp : DispatchResponse)
    (h : info_table.supported_fns input ctx = some (Except.ok resp)) :
    List.Sorted (· ≤ ·) (resp.buf.drop 2) := by
  match input with
  | [] => exact absurd h (by simp [info_table.supported_fns])
  | [page] => exact absurd h (by simp [info_table.supported_fns])
  | page :: start :: rest =>
    simp only [info_table.supported_fns] at h
    split at h
    · exact absurd h (by simp)
    · split at h
      · split at h
        · exact absurd h (by simp)
        · rename_i element_list heq
          split at h
          · simp only [Option.some.injEq, Except.ok.injEq] at h
            subst h
            simp only [sliceGetFrom] at heq
            split at heq
            · simp only [Option.some.injEq] at heq
              subst heq
              exact sorted_drop_sortKeys _ _
            · exact absurd heq (by simp)
          · exact absurd h (by simp)
      · exact absurd h (by simp)

/-- C7: whenever `supported_fn_pages` and `supported_fns` answer
successfully, the page list and the function-id list they return (after the
`[count, 0]` prefix) are in ascending numeric order, for every table and
hence for every registration order. -/
theorem supported_enumerations_sorted (input input2 : List Nat) (ctx : DispatchContext)
    (resp resp2 : DispatchResponse)
    (h1 : info_table.supported_fn_pages input ctx = some (Except.ok resp))
    (h2 : info_table.supported_fns input2 ctx = some (Except.ok resp2)) :
    List.Sorted (· ≤ ·) (resp.buf.drop 2) ∧ List.Sorted (· ≤ ·) (resp2.buf.drop 2) :=
  ⟨supported_fn_pages_sorted input ctx resp h1, supported_fns_sorted input2 ctx resp2 h2⟩

/-- Witness for C7: `ctx0` registers page 2 before page 0 and, on page 2,
function 1 before function 0; both enumerations still come back sorted. -/
theorem supported_enumerations_sorted_witness :
    List.Sorted (· ≤ ·) ((DispatchResponse.mk [2, 0, 0, 2]).buf.drop 2) ∧
    List.Sorted (· ≤ ·) ((DispatchResponse.mk [2, 0, 0, 1]).buf.drop 2) :=
  supported_enumerations_sorted [0] [2, 0] ctx0
    (DispatchResponse.mk [2, 0, 0, 2]) (DispatchResponse.mk [2, 0, 0, 1]) rfl rfl

/-- C8: `firmware_info` with selector 0, 1 or 2 returns the
construction-time vendor, version or device-name string unmodified, and any
selector ≥ 3 returns `Err(InvalidValue(0))`. -/
theorem firmware_info_selector_spec (ctx : DispatchContext) (rest : List Nat) (b : Nat)
    (hb : 3 ≤ b) :
    info_table.firmware_info (0 :: rest) ctx =
        some (Except.ok { buf := ctx.meta.firmware_vendor }) ∧
    info_table.firmware_info (1 :: rest) ctx =
        some (Except.ok { buf := ctx.meta.firmware_version }) ∧
    info_table.firmware_info (2 :: rest) ctx =
        some (Except.ok { buf := ctx.meta.device_name }) ∧
    info_table.firmware_info (b :: rest) ctx =
        some (Except.error (Error.InvalidValue 0)) := by
  refine ⟨rfl, rfl, rfl, ?_⟩
  obtain ⟨k, rfl⟩ : ∃ k, b = k + 3 := ⟨b - 3, by omega⟩
  rfl

/-- Witness for C8: selector 3 on `ctx0` is rejected with
`InvalidValue(0)`, and selector 2 returns the configured device name. -/
theorem firmware_info_selector_spec_witness :
    info_table.firmware_info [3] ctx0 = some (Except.error (Error.InvalidValue 0)) :=
  (firmware_info_selector_spec ctx0 [] 3 (by decide)).2.2.2

/-- C9: enumeration boundary behaviour.  With `n` registered pages,
`supported_fn_pages` at start offset `n` answers `Ok` with payload `[0, 0]`
(count zero, empty list) because `slice.get(n..)` on an `n`-element slice is
`Some(&[])`; it answers `Err(InvalidValue(0))` exactly for offsets strictly
greater than `n` (every offset `≤ n` yields `Ok`).  `supported_fns` behaves
the same way at the function count of a registered page. -/
theorem enumeration_boundary (ctx : DispatchContext) (rest rest2 : List Nat)
    (b s page : Nat) (fn_page : List Nat)
    (h8 : ctx.table.length ≤ 8)
    (hpage : ctx.table.lookup page = some fn_page)
    (hf8 : fn_page.length ≤ 8) :
    (info_table.supported_fn_pages (ctx.table.length :: rest) ctx =
        some (Except.ok { buf := [0, 0] })) ∧
    (ctx.table.length < b →
      info_table.supported_fn_pages (b :: rest) ctx =
        some (Except.error (Error.InvalidValue 0))) ∧
    (b ≤ ctx.table.length →
      ∃ resp, info_table.supported_fn_pages (b :: rest) ctx = some (Except.ok resp)) ∧
    (info_table.supported_fns (page :: fn_page.length :: rest2) ctx =
        some (Except.ok { buf := [0, 0] })) ∧
    (fn_page.length < s →
      info_table.supported_fns (page :: s :: rest2) ctx =
        some (Except.error (Error.InvalidValue 0))) ∧
    (s ≤ fn_page.length →
      ∃ resp, info_table.supported_fns (page :: s :: rest2) ctx = some (Except.ok resp)) := by
  have e29 : DISPATCH_LONG_RET_LEN = 29 := rfl
  have hlen : (List.insertionSort (· ≤ ·) (ctx.table.map Prod.fst)).length =
      ctx.table.length := by
    rw [length_sortKeys, List.length_map]
  have hflen : (List.insertionSort (· ≤ ·) fn_page).length = fn_page.length :=
    length_sortKeys _
  refine ⟨?_, ?_, ?_, ?_, ?_, ?_⟩
  · simp only [info_table.supported_fn_pages]
    rw [if_pos h8]
    have hs : sliceGetFrom (List.insertionSort (· ≤ ·) (ctx.table.map Prod.fst))
        ctx.table.length = some [] := by
      unfold sliceGetFrom
      rw [if_pos (le_of_eq hlen.symm), ← hlen, List.drop_length]
    rw [hs]
    rfl
  · intro hb
    simp only [info_table.supported_fn_pages]
    rw [if_pos h8]
    have hs : sliceGetFrom (List.insertionSort (· ≤ ·) (ctx.table.map Prod.fst)) b =
        none := by
      unfold sliceGetFrom
      rw [if_neg (by omega)]
    rw [hs]
  · intro hb
    simp only [info_table.supported_fn_pages]
    rw [if_pos h8]
    have hs : sliceGetFrom (List.insertionSort (· ≤ ·) (ctx.table.map Prod.fst)) b =
        some ((List.insertionSort (· ≤ ·) (ctx.table.map Prod.fst)).drop b) := by
      unfold sliceGetFrom
      rw [if_pos (by omega)]
    refine ⟨DispatchResponse.mk
      ([((List.insertionSort (· ≤ ·) (ctx.table.map Prod.fst)).drop b).length % 256, 0] ++
        (List.insertionSort (· ≤ ·) (ctx.table.map Prod.fst)).drop b), ?_⟩
    simp only [hs]
    rw [if_pos (by rw [List.length_drop, hlen, e29]; omega)]
  · simp only [info_table.supported_fns, hpage]
    rw [if_pos hf8]
    have hs : sliceGetFrom (List.insertionSort (· ≤ ·) fn_page) fn_page.length =
        some [] := by
      unfold sliceGetFrom
      rw [if_pos (le_of_eq hflen.symm), ← hflen, List.drop_length]
    rw [hs]
    rfl
  · intro hsgt
    simp only [info_table.supported_fns, hpage]
    rw [if_pos hf8]
    have hs : sliceGetFrom (List.insertionSort (· ≤ ·) fn_page) s = none := by
      unfold sliceGetFrom
      rw [if_neg (by omega)]
    rw [hs]
  · intro hsle
    simp only [info_table.supported_fns, hpage]
    rw [if_pos hf8]
    have hs : sliceGetFrom (List.insertionSort (· ≤ ·) fn_page) s =
        some ((List.insertionSort (· ≤ ·) fn_page).drop s) := by
      unfold sliceGetFrom
      rw [if_pos (by omega)]
    refine ⟨DispatchResponse.mk
      ([((List.insertionSort (· ≤ ·) fn_page).drop s).length % 256, 0] ++
        (List.insertionSort (· ≤ ·) fn_page).drop s), ?_⟩
    simp only [hs]
    rw [if_pos (by rw [List.length_drop, hflen, e29]; omega)]

/-- Witness for C9: `ctx0` has 2 pages, and its page 2 has 2 functions;
start offsets equal to those counts yield `[0, 0]`. -/
theorem enumeration_boundary_witness :
    info_table.supported_fn_pages [2] ctx0 = some (Except.ok { buf := [0, 0] }) ∧
    info_table.supported_fns [2, 2] ctx0 = some (Except.ok { buf := [0, 0] }) :=
  ⟨(enumeration_boundary ctx0 [] [] 0 0 2 [1, 0] (by decide) rfl (by decide)).1,
   (enumeration_boundary ctx0 [] [] 0 0 2 [1, 0] (by decide) rfl (by decide)).2.2.2.1⟩

/-- C10: framing a handler response whose buffer holds at most 29 bytes
never panics: the selected `resize` call succeeds (it shrinks to 5 bytes in
the first branch and pads to 29 within the capacity in the second), and the
subsequent `try_into` to the fixed-size array succeeds, so
`DispatchResponse::report` always produces a frame. -/
theorem report_never_panics (resp : DispatchResponse) (page fn_id : Nat)
    (h : resp.buf.length ≤ 29) :
    ∃ rep, resp.report page fn_id = some rep := by
  have e5 : DISPATCH_SHORT_RET_LEN = 5 := rfl
  have e29 : DISPATCH_LONG_RET_LEN = 29 := rfl
  unfold DispatchResponse.report
  by_cases hlen : resp.buf.length > DISPATCH_SHORT_RET_LEN
  · rw [if_pos hlen]
    have hres : hVecResize resp.buf DISPATCH_LONG_RET_LEN DISPATCH_SHORT_RET_LEN 0 =
        some (resp.buf.take DISPATCH_SHORT_RET_LEN) := by
      unfold hVecResize
      rw [if_pos (by rw [e5, e29]; omega), if_pos (le_of_lt hlen)]
    have harr : sliceToArray (resp.buf.take DISPATCH_SHORT_RET_LEN)
        DISPATCH_SHORT_RET_LEN = some (resp.buf.take DISPATCH_SHORT_RET_LEN) := by
      unfold sliceToArray
      rw [if_pos (by rw [List.length_take]; exact inf_eq_left.mpr (le_of_lt hlen))]
    simp only [hres, harr]
    exact ⟨_, rfl⟩
  · rw [if_neg hlen]
    have hle : resp.buf.length ≤ DISPATCH_SHORT_RET_LEN := by omega
    have hres : hVecResize resp.buf DISPATCH_LONG_RET_LEN DISPATCH_LONG_RET_LEN 0 =
        some (resp.buf ++ List.replicate (DISPATCH_LONG_RET_LEN - resp.buf.length) 0) := by
      unfold hVecResize
      rw [if_pos (le_refl _), if_neg (by rw [e5] at hle; rw [e29]; omega)]
    have harr : sliceToArray
        (resp.buf ++ List.replicate (DISPATCH_LONG_RET_LEN - resp.buf.length) 0)
        DISPATCH_LONG_RET_LEN =
        some (resp.buf ++ List.replicate (DISPATCH_LONG_RET_LEN - resp.buf.length) 0) := by
      unfold sliceToArray
      rw [if_pos (by rw [List.length_append, List.length_replicate, e29]; omega)]
    simp only [hres, harr]
    exact ⟨_, rfl⟩

/-- Witness for C10: a 3-byte response is framed without panicking. -/
theorem report_never_panics_witness :
    ∃ rep, (DispatchResponse.mk [1, 2, 3]).report 0 0 = some rep :=
  report_never_panics (DispatchResponse.mk [1, 2, 3]) 0 0 (by decide)

end OpenInput
